import Mathlib

/-!
Verification of the nvoclock calibration sweep driver (`src/main.rs`) and of the
Calibration Session contract described in the design document. The sweep driver,
the `reset` subcommand and the `overvolt` subcommand are embedded from
`src/main.rs`; the Calibration Session internals (`test_point`, `prepare`,
`cleanup`, implemented by the `auto` module, which is not part of the sources
at hand) are modelled from the design document.
-/

namespace NvOClock

/-- Verdict produced by one Point Tester cycle (design §3 `TestVerdict`): the
test of a candidate delta either passes, fails, or is inconclusive. -/
inductive Verdict where
  | stable
  | unstable
  | inconclusive
deriving DecidableEq, Repr

/-- Modelled from the spec: §4.1 step 6 of the stepwise search — an
`Inconclusive` verdict is retried up to a small fixed bound before being
treated as `Unstable`. The `auto` module implementing the Calibration Session
is not present under src/; `verdict` abstracts the Point Tester, taking the
candidate delta and the remaining-attempt counter. -/
def resolveVerdict (verdict : Int → Nat → Verdict) (candidate : Int) : Nat → Verdict
  | 0 => Verdict.unstable
  | n + 1 =>
    match verdict candidate n with
    | Verdict.inconclusive => resolveVerdict verdict candidate n
    | v => v

/-- Modelled from the spec: the "small fixed bound" of retries for an
inconclusive test cycle (§4.1 step 6). -/
def retryBound : Nat := 3

/-- Modelled from the spec: the loop of the stepwise search of `test_point`
(§4.1 steps 2–6), with explicit fuel; `lastGood` is the last known-good delta.
On `Stable` the candidate is remembered and increased by `step` unless the
next candidate frequency would exceed the ceiling; on `Unstable` (or after the
retry bound) the last known-good is returned, as `(delta, frequency)`. -/
def searchFrom (step ceiling baseFreq : Int) (verdict : Int → Nat → Verdict) :
    Nat → Int → Option Int → Option (Int × Int)
  | 0, _, lastGood => lastGood.map fun d => (d, baseFreq + d)
  | fuel + 1, candidate, lastGood =>
    match resolveVerdict verdict candidate (retryBound + 1) with
    | Verdict.stable =>
      if baseFreq + (candidate + step) > ceiling then some (candidate, baseFreq + candidate)
      else searchFrom step ceiling baseFreq verdict fuel (candidate + step) (some candidate)
    | _ => lastGood.map fun d => (d, baseFreq + d)

/-- Modelled from the spec: `test_point` (§4.1) — stepwise search starting at
`startingDelta`, stepping by `step`, bounded by `ceiling`; returns
`some (delta, frequency)` on finding a stable maximum and `none` if even the
starting delta is unstable. The fuel is an upper bound on the number of
candidates the ceiling allows. -/
def test_point (step ceiling baseFreq startingDelta : Int)
    (verdict : Int → Nat → Verdict) : Option (Int × Int) :=
  searchFrom step ceiling baseFreq verdict
    ((ceiling - baseFreq - startingDelta).toNat / step.toNat + 2) startingDelta none

/-- Modelled from the spec: the device-visible state the Calibration Session
touches — the fan policy and the clock-lock (design §3, §4.1). -/
structure DeviceState where
  fanPolicy : Int
  clockLock : Option Int
deriving DecidableEq, Repr

/-- Modelled from the spec: the session state saved by `prepare()` — the prior
fan policy (when overridden) and the prior clock-lock, the "safe point" to
restore on any exit path (design §3 `CalibrationSession`, §4.1). -/
structure SessionSaved where
  savedFan : Option Int
  savedLock : Option Int
deriving DecidableEq, Repr

/-- Modelled from the spec: the fixed, high cooling level `prepare()` forces
while testing (§4.1). -/
def fixedHighCooling : Int := 100

/-- Modelled from the spec: `prepare()` (§4.1) — saves the current fan policy
when the fan is overridden and forces a fixed high cooling level, and saves
the current clock-lock state as the safe point. -/
def prepare (fanOverride : Bool) (dev : DeviceState) : DeviceState × SessionSaved :=
  if fanOverride then
    ({ dev with fanPolicy := fixedHighCooling },
     { savedFan := some dev.fanPolicy, savedLock := dev.clockLock })
  else
    (dev, { savedFan := none, savedLock := dev.clockLock })

/-- Modelled from the spec: `cleanup()` (§4.1, §8 "Monotonic safety") —
restores the fan policy saved by `prepare` (when one was saved) and restores
the clock-lock to the saved safe point. -/
def cleanup (saved : SessionSaved) (dev : DeviceState) : DeviceState :=
  { fanPolicy :=
      match saved.savedFan with
      | some f => f
      | none => dev.fanPolicy
    clockLock := saved.savedLock }

/-- One point of `status.vfp.graphics` as read before the sweep
(main.rs line 888): voltage in µV and base frequency in kHz. -/
structure CurveEntry where
  voltage : Int
  frequency : Int
deriving DecidableEq, Repr

/-- nvapi `VfPoint` as inserted into the results map (main.rs lines 913–917). -/
structure VfPointE where
  voltage : Int
  frequency : Int
  delta : Int
deriving DecidableEq, Repr

/-- The snapshot the `auto` branch reads before the sweep (main.rs lines
888–892): `status.vfp.graphics` (index → point) and `settings.vfp.graphics`
(index → current delta), as association lists. -/
structure Snapshot where
  graphics : List (Nat × CurveEntry)
  deltas : List (Nat × Int)
deriving DecidableEq, Repr

/-- The value of one `auto.test_point` call as the sweep driver sees it
(main.rs lines 911–928): `Ok(Some((delta, frequency)))`, `Ok(None)`, or
`Err(e)`. -/
inductive TpResult where
  | found (delta frequency : Int)
  | noImprovement
  | fatal
deriving DecidableEq, Repr

/-- Observable events of the `auto` branch, in execution order:
`AutoDetect::new`, `test_prepare`, each `test_point` call with its arguments
(index, voltage, base frequency, starting delta), `test_cleanup`, and the
`export_vfp` flush of the results map. -/
inductive Event where
  | evNew
  | evPrepare
  | evTestPoint (i : Nat) (voltage frequency startingDelta : Int)
  | evCleanup
  | evExport
deriving DecidableEq, Repr

/-- How the `auto` branch ends: normal success; `Err` returned from the
`test_point` error arm (main.rs line 927); `Err` from `new`/`test_prepare`
(lines 902, 905); `Err` propagated from `test_cleanup` after the final export
(line 936); or a process panic from `.unwrap()` on a missing delta (line 909)
or `.max().unwrap()` on an empty curve (line 892). -/
inductive ExitCode where
  | success
  | testError
  | prepError
  | cleanupError
  | panicked
deriving DecidableEq, Repr

/-- Outcome of the `auto` branch: the final results accumulator, the event
trace, what `export_vfp` received (if it ran), and the exit. -/
structure SweepOut where
  results : List (Nat × VfPointE)
  events : List Event
  exported : Option (List (Nat × VfPointE))
  exit : ExitCode
deriving DecidableEq, Repr

/-- `BTreeMap::insert` on an association list kept sorted ascending by key
(matching `BTreeMap`'s iteration order used by `results.into_iter()`). -/
def btreeInsert (k : Nat) (v : VfPointE) : List (Nat × VfPointE) → List (Nat × VfPointE)
  | [] => [(k, v)]
  | (j, w) :: rest =>
    if k < j then (k, v) :: (j, w) :: rest
    else if k = j then (k, v) :: rest
    else (j, w) :: btreeInsert k v rest

/-- The sweep loop of the `auto` branch (main.rs lines 907–936) over a list of
curve indices: skip an index absent from `vfp.graphics` (the `filter_map`),
panic on a delta missing from the settings snapshot (the `.unwrap()` at line
909), call `test_point` with the index's snapshot voltage, frequency and
current delta, insert a `found` result, ignore `noImprovement`, and on `fatal`
run `test_cleanup`, export the partial results and return the error.  On
normal completion run `test_cleanup` and export; a cleanup failure surfaces
only after the export (line 936).  The returned events are those of the
remaining computation, in order. -/
def sweepLoop (tester : Nat → Int → Int → Int → TpResult) (cleanupOk : Bool)
    (snap : Snapshot) : List Nat → List (Nat × VfPointE) → SweepOut
  | [], acc =>
    { results := acc
      events := [Event.evCleanup, Event.evExport]
      exported := some acc
      exit := if cleanupOk then ExitCode.success else ExitCode.cleanupError }
  | i :: rest, acc =>
    match List.lookup i snap.graphics with
    | none => sweepLoop tester cleanupOk snap rest acc
    | some pt =>
      match List.lookup i snap.deltas with
      | none => { results := acc, events := [], exported := none, exit := ExitCode.panicked }
      | some d =>
        match tester i pt.voltage pt.frequency d with
        | TpResult.found delta freq =>
          let o := sweepLoop tester cleanupOk snap rest
            (btreeInsert i ⟨pt.voltage, freq, delta⟩ acc)
          { o with events := Event.evTestPoint i pt.voltage pt.frequency d :: o.events }
        | TpResult.noImprovement =>
          let o := sweepLoop tester cleanupOk snap rest acc
          { o with events := Event.evTestPoint i pt.voltage pt.frequency d :: o.events }
        | TpResult.fatal =>
          { results := acc
            events := [Event.evTestPoint i pt.voltage pt.frequency d,
              Event.evCleanup, Event.evExport]
            exported := some acc
            exit := ExitCode.testError }

/-- The list of curve indices the sweep iterates: `(start..end).rev()`
(main.rs line 907) — the half-open range `[start, e)` in descending order. -/
def sweepIndices (start e : Nat) : List Nat :=
  (List.range' start (e - start)).reverse

/-- `vfp.graphics.iter().map(|(&i, _)| i).max()` (main.rs line 892). -/
def maxKey (l : List (Nat × CurveEntry)) : Option Nat :=
  (l.map Prod.fst).maximum

/-- The effective end bound of the sweep: `end.unwrap_or(max key)`
(main.rs line 892); `none` means the `.max().unwrap()` panic on an empty
curve. -/
def effectiveEnd (snap : Snapshot) : Option Nat → Option Nat
  | some e => some e
  | none => maxKey snap.graphics

/-- The `set vfp auto` branch (main.rs lines 880–937): compute the effective
end bound (panicking on an empty curve), create the session, prepare, then run
the sweep from the descending index range with an empty results map.  `newOk`
and `prepOk` abstract whether `AutoDetect::new` and `test_prepare` succeed. -/
def autoCommand (newOk prepOk cleanupOk : Bool)
    (tester : Nat → Int → Int → Int → TpResult) (snap : Snapshot)
    (start : Nat) (endArg : Option Nat) : SweepOut :=
  match effectiveEnd snap endArg with
  | none => { results := [], events := [], exported := none, exit := ExitCode.panicked }
  | some e =>
    if !newOk then
      { results := [], events := [Event.evNew], exported := none, exit := ExitCode.prepError }
    else if !prepOk then
      { results := []
        events := [Event.evNew, Event.evPrepare]
        exported := none
        exit := ExitCode.prepError }
    else
      let o := sweepLoop tester cleanupOk snap (sweepIndices start e) []
      { o with events := Event.evNew :: Event.evPrepare :: o.events }

/-- The `(index, starting_delta)` arguments of the `test_point` calls recorded
in an event trace, in call order. -/
def testCallArgs : List Event → List (Nat × Int)
  | [] => []
  | Event.evTestPoint i _ _ d :: rest => (i, d) :: testCallArgs rest
  | _ :: rest => testCallArgs rest

/-- The indices at which `test_point` was called, in call order. -/
def testedIndices (evs : List Event) : List Nat :=
  (testCallArgs evs).map Prod.fst

/-- The `test_point` outcome the sweep would observe at index `i`: `none` when
the snapshot lacks the index (skipped or panickable), otherwise the tester's
verdict at the snapshot's voltage, frequency and current delta. -/
def runTest (tester : Nat → Int → Int → Int → TpResult) (snap : Snapshot)
    (i : Nat) : Option TpResult :=
  match List.lookup i snap.graphics with
  | none => none
  | some pt =>
    match List.lookup i snap.deltas with
    | none => none
    | some d => some (tester i pt.voltage pt.frequency d)

/-- The accumulator step of one sweep iteration, as a function of the index
alone: what the results map becomes after the sweep processes index `i`
(insert on a `found` verdict, unchanged otherwise). -/
def stepAcc (tester : Nat → Int → Int → Int → TpResult) (snap : Snapshot)
    (a : List (Nat × VfPointE)) (i : Nat) : List (Nat × VfPointE) :=
  match List.lookup i snap.graphics with
  | none => a
  | some pt =>
    match List.lookup i snap.deltas with
    | none => a
    | some d =>
      match tester i pt.voltage pt.frequency d with
      | TpResult.found delta freq => btreeInsert i ⟨pt.voltage, freq, delta⟩ a
      | _ => a

/-- The settings a `reset` invocation can touch (main.rs lines 100–109). -/
inductive ResetSettings where
  | VoltageBoost
  | SensorLimits
  | PowerLimits
  | CoolerLevels
  | VfpDeltas
  | VfpLock
  | PStateDeltas
  | Overvolt
deriving DecidableEq, Repr

/-- `ResetSettings::possible_values_typed()` (main.rs lines 170–182): all
eight settings, in declaration order. -/
def ResetSettings.possibleValuesTyped : List ResetSettings :=
  [ResetSettings.VoltageBoost, ResetSettings.SensorLimits, ResetSettings.PowerLimits,
   ResetSettings.CoolerLevels, ResetSettings.VfpDeltas, ResetSettings.VfpLock,
   ResetSettings.PStateDeltas, ResetSettings.Overvolt]

/-- `ResetSettings::from_str` (main.rs lines 170–182). -/
def ResetSettings.fromStr (s : String) : Except String ResetSettings :=
  match s with
  | "voltage-boost" => Except.ok ResetSettings.VoltageBoost
  | "thermal" => Except.ok ResetSettings.SensorLimits
  | "power" => Except.ok ResetSettings.PowerLimits
  | "cooler" => Except.ok ResetSettings.CoolerLevels
  | "vfp" => Except.ok ResetSettings.VfpDeltas
  | "lock" => Except.ok ResetSettings.VfpLock
  | "pstate" => Except.ok ResetSettings.PStateDeltas
  | "overvolt" => Except.ok ResetSettings.Overvolt
  | _ => Except.error "unknown setting"

/-- A clap `ArgMatches` abstracted to its `values_of` lookup: an argument name
maps to the values supplied for it, or `none` when the name was never
declared or the argument received no values. -/
structure ArgMatches where
  valuesOf : String → Option (List String)

/-- The argument matches of the `reset` subcommand: its only declared argument
is the positional `SETTING` list named "setting" (main.rs lines 345–351), so
only that name can yield values. -/
def clapResetMatches (supplied : List String) : ArgMatches :=
  { valuesOf := fun name =>
      if name == "setting" && !supplied.isEmpty then some supplied else none }

/-- The settings filter of the `reset` handler (main.rs lines 704–708): it
queries `matches.values_of("reset")`; on `Some` it parses the values and marks
the selection explicit, on `None` it falls back to every setting with
`explicit = false`. -/
def resetSelection (m : ArgMatches) : Except String (List ResetSettings × Bool) :=
  match m.valuesOf "reset" with
  | some vs => (vs.mapM ResetSettings.fromStr).map fun l => (l, true)
  | none => Except.ok (ResetSettings.possibleValuesTyped, false)

/-- The nvapi statuses this development distinguishes. -/
inductive Status where
  | NoImplementation
  | NotSupported
  | GenericError
deriving DecidableEq, Repr

/-- Whether nvapi's `allowable_result` treats a status as an allowable
(tolerable) failure; the external collaborator wraps `NotSupported` and
`NoImplementation` rather than propagating them. -/
def Status.isAllowable : Status → Bool
  | Status.NoImplementation => true
  | Status.NotSupported => true
  | Status.GenericError => false

/-- nvapi's `allowable_result` (external collaborator): allowable failures
become `ok (error s)`, others propagate. -/
def allowable_result (r : Except Status Unit) : Except Status (Except Status Unit) :=
  match r with
  | Except.ok () => Except.ok (Except.ok ())
  | Except.error e => if e.isAllowable then Except.ok (Except.error e) else Except.error e

/-- The `Error::ResetError` variant (main.rs lines 62–68). -/
inductive ResetFailure where
  | resetFailed (setting : ResetSettings) (err : Status)
deriving DecidableEq, Repr

/-- `warn_result` of the `reset` handler (main.rs lines 710–715): a
non-allowable failure always escalates; an allowable failure escalates only
when the selection was explicit. -/
def warn_result (r : Except Status Unit) (setting : ResetSettings) (explicit : Bool) :
    Except ResetFailure Unit :=
  match allowable_result r with
  | Except.error e => Except.error (ResetFailure.resetFailed setting e)
  | Except.ok (Except.error e) =>
    if explicit then Except.error (ResetFailure.resetFailed setting e) else Except.ok ()
  | Except.ok (Except.ok ()) => Except.ok ()

/-- The device action for resetting the Overvolt setting (main.rs lines
757–761): the TODO arm passes `Err(Status::NoImplementation)` to
`warn_result`. -/
def resetOvervoltAction : Except Status Unit :=
  Except.error Status.NoImplementation

/-- Whether a command branch completes normally or panics the process. -/
inductive CmdOutcome where
  | completed
  | panicked
deriving DecidableEq, Repr

/-- The subcommands of `set` (main.rs lines 786–946). -/
inductive SetSub where
  | pstate
  | cooler
  | vfp
  | overvolt
  | noSub
deriving DecidableEq, Repr

/-- How each `set` subcommand branch can end at the dispatch level: the
`overvolt` arm (main.rs lines 941–943) is `unimplemented!()` and panics
unconditionally; every other arm can complete normally. -/
def setSubOutcome : SetSub → CmdOutcome
  | SetSub.overvolt => CmdOutcome.panicked
  | _ => CmdOutcome.completed

/-- Concrete snapshot for the carry-forward counterexample: two curve points,
both with current delta 0 in the settings snapshot. -/
def cexSnap1 : Snapshot :=
  { graphics := [(0, ⟨800000, 1890000⟩), (1, ⟨850000, 1900000⟩)]
    deltas := [(0, 0), (1, 0)] }

/-- Concrete tester for the carry-forward counterexample: index 1 discovers a
stable delta of 5000, index 0 discovers 0. -/
def cexTester1 : Nat → Int → Int → Int → TpResult :=
  fun i _ _ _ => if i == 1 then TpResult.found 5000 1905000 else TpResult.found 0 1890000

/-- Concrete snapshot for the default-end counterexample: three curve points
with indices 0, 1, 2. -/
def cexSnap2 : Snapshot :=
  { graphics := [(0, ⟨700000, 1600000⟩), (1, ⟨800000, 1800000⟩), (2, ⟨900000, 1950000⟩)]
    deltas := [(0, 0), (1, 0), (2, 0)] }

/-- Concrete tester yielding no improvement at every point. -/
def cexTester2 : Nat → Int → Int → Int → TpResult :=
  fun _ _ _ _ => TpResult.noImprovement

/-- Concrete tester for the partial-result counterexample: index 2 yields no
improvement, every other index fails fatally. -/
def cexTester4 : Nat → Int → Int → Int → TpResult :=
  fun i _ _ _ => if i == 2 then TpResult.noImprovement else TpResult.fatal

/-- C9: with step 15000 kHz, ceiling 2000000 kHz, base frequency 1900000 kHz
and starting delta 0, a tester stable at deltas 0, 15000, 30000 and unstable
at 45000 makes `test_point` return `some (30000, 1930000)`; a tester unstable
immediately at delta 0 makes it return `none`. -/
theorem C9_test_point_scenarios :
    test_point 15000 2000000 1900000 0
        (fun d _ => if d ≤ 30000 then Verdict.stable else Verdict.unstable) =
      some (30000, 1930000) ∧
    test_point 15000 2000000 1900000 0 (fun _ _ => Verdict.unstable) = none := by
  constructor
  · rfl
  · rfl

/-- C10: `prepare` followed by `cleanup` is a round trip on the fan policy and
the clock-lock state, for any fan-override setting and any clock-lock applied
by the test phase in between — on the success path and the error path alike,
since `cleanup` is the same on both. -/
theorem C10_cleanup_roundtrip (fanOverride : Bool) (dev : DeviceState) (midLock : Option Int) :
    cleanup (prepare fanOverride dev).2
        { (prepare fanOverride dev).1 with clockLock := midLock } =
      { fanPolicy := dev.fanPolicy, clockLock := dev.clockLock } := by
  cases fanOverride <;> rfl

/-- `List.lookup` after a `btreeInsert`: the inserted key shadows, every other
key is unchanged. -/
theorem lookup_btreeInsert (k j : Nat) (v : VfPointE) :
    ∀ l : List (Nat × VfPointE),
      List.lookup j (btreeInsert k v l) = if j = k then some v else List.lookup j l
  | [] => by
    by_cases h : j = k
    · subst h
      simp [btreeInsert, List.lookup]
    · have hb : (j == k) = false := by simp [h]
      simp [btreeInsert, List.lookup, hb, h]
  | (a, w) :: rest => by
    unfold btreeInsert
    by_cases h1 : k < a
    · rw [if_pos h1]
      by_cases h : j = k
      · subst h
        simp [List.lookup]
      · have hb : (j == k) = false := by simp [h]
        simp [List.lookup, hb, h]
    · rw [if_neg h1]
      by_cases h2 : k = a
      · rw [if_pos h2]
        subst h2
        by_cases h : j = k
        · subst h
          simp [List.lookup]
        · have hb : (j == k) = false := by simp [h]
          simp [List.lookup, hb, h]
      · rw [if_neg h2]
        by_cases h : j = a
        · subst h
          have hjk : ¬ j = k := fun hh => h2 hh.symm
          simp [List.lookup, hjk]
        · have hb : (j == a) = false := by simp [h]
          simp [List.lookup, hb, lookup_btreeInsert k j v rest]

/-- C5: the `reset` handler reads the settings filter from the undeclared
argument name "reset" rather than the declared "setting", so regardless of
which SETTING values the user supplies the selection is the full list of all
eight settings and the explicit flag is false. -/
theorem C5_reset_selection (supplied : List String) :
    resetSelection (clapResetMatches supplied) =
      Except.ok (ResetSettings.possibleValuesTyped, false) ∧
    ResetSettings.possibleValuesTyped.length = 8 :=
  ⟨rfl, rfl⟩

/-- C8: resetting the Overvolt setting always yields a `NoImplementation`
status — an error exactly when the selection is explicit — and the
`set overvolt` subcommand unconditionally panics through `unimplemented!()`,
never completing normally. -/
theorem C8_overvolt_unimplemented :
    (∀ explicit : Bool,
      warn_result resetOvervoltAction ResetSettings.Overvolt explicit =
        if explicit then
          Except.error
            (ResetFailure.resetFailed ResetSettings.Overvolt Status.NoImplementation)
        else Except.ok ()) ∧
    setSubOutcome SetSub.overvolt = CmdOutcome.panicked := by
  refine ⟨fun explicit => ?_, rfl⟩
  cases explicit <;> rfl

/-- C1 counterexample: sweeping indices [1, 0], the call at index 0 is made
with starting delta 0 straight from the settings snapshot even though index 1
— tested immediately before — discovered the stable delta 5000; the
discovered delta is not carried forward. -/
theorem C1_counterexample :
    testCallArgs (autoCommand true true true cexTester1 cexSnap1 0 (some 2)).events =
      [(1, 0), (0, 0)] ∧
    cexTester1 1 850000 1900000 0 = TpResult.found 5000 1905000 ∧
    (0 : Int) ≠ 5000 := by
  refine ⟨rfl, rfl, by decide⟩

/-- C2 counterexample: with curve indices 0, 1, 2 and no explicit end bound,
the sweep computes end = max index = 2 and iterates `(0..2).rev() = [1, 0]`,
so the highest curve index 2 is never tested even though it is present in the
curve. -/
theorem C2_counterexample :
    2 ∈ cexSnap2.graphics.map Prod.fst ∧
    testedIndices (autoCommand true true true cexTester2 cexSnap2 0 none).events = [1, 0] ∧
    2 ∉ testedIndices (autoCommand true true true cexTester2 cexSnap2 0 none).events := by
  refine ⟨by decide, rfl, by decide⟩

/-- C4 counterexample: sweeping indices [2, 1, 0], index 2 is tested first and
yields `Ok(None)` (no insertion), then index 1 aborts fatally; at the abort
the accumulator holds no entry for index 2 although 2 was visited strictly
before the aborting index. -/
theorem C4_counterexample :
    (autoCommand true true true cexTester4 cexSnap2 0 (some 3)).exit = ExitCode.testError ∧
    testedIndices (autoCommand true true true cexTester4 cexSnap2 0 (some 3)).events = [2, 1] ∧
    List.lookup 2 (autoCommand true true true cexTester4 cexSnap2 0 (some 3)).results = none := by
  refine ⟨rfl, rfl, rfl⟩

/-- Trace shape of the sweep loop: on every run that does not panic, the event
trace is a block consisting only of `test_point` calls followed by exactly
`cleanup` and then `export`. -/
theorem sweepLoop_shape (tester : Nat → Int → Int → Int → TpResult) (cleanupOk : Bool)
    (snap : Snapshot) :
    ∀ (idxs : List Nat) (acc : List (Nat × VfPointE)),
      (sweepLoop tester cleanupOk snap idxs acc).exit ≠ ExitCode.panicked →
      ∃ tests, (sweepLoop tester cleanupOk snap idxs acc).events =
          tests ++ [Event.evCleanup, Event.evExport] ∧
        ∀ e ∈ tests, ∃ i v f d, e = Event.evTestPoint i v f d
  | [], acc => by
    intro _
    exact ⟨[], rfl, by simp⟩
  | i :: rest, acc => by
    intro hnp
    cases hg : List.lookup i snap.graphics with
    | none =>
      simp only [sweepLoop, hg] at hnp ⊢
      exact sweepLoop_shape tester cleanupOk snap rest acc hnp
    | some pt =>
      cases hd : List.lookup i snap.deltas with
      | none =>
        simp [sweepLoop, hg, hd] at hnp
      | some d =>
        cases ht : tester i pt.voltage pt.frequency d with
        | found delta freq =>
          simp only [sweepLoop, hg, hd, ht] at hnp ⊢
          obtain ⟨tests, hev, hall⟩ :=
            sweepLoop_shape tester cleanupOk snap rest
              (btreeInsert i ⟨pt.voltage, freq, delta⟩ acc) hnp
          refine ⟨Event.evTestPoint i pt.voltage pt.frequency d :: tests, by simp [hev], ?_⟩
          intro e he
          rcases List.mem_cons.mp he with he | he
          · exact ⟨i, pt.voltage, pt.frequency, d, he⟩
          · exact hall e he
        | noImprovement =>
          simp only [sweepLoop, hg, hd, ht] at hnp ⊢
          obtain ⟨tests, hev, hall⟩ := sweepLoop_shape tester cleanupOk snap rest acc hnp
          refine ⟨Event.evTestPoint i pt.voltage pt.frequency d :: tests, by simp [hev], ?_⟩
          intro e he
          rcases List.mem_cons.mp he with he | he
          · exact ⟨i, pt.voltage, pt.frequency, d, he⟩
          · exact hall e he
        | fatal =>
          simp only [sweepLoop, hg, hd, ht]
          exact ⟨[Event.evTestPoint i pt.voltage pt.frequency d], rfl, by
            intro e he
            rcases List.mem_cons.mp he with he | he
            · exact ⟨i, pt.voltage, pt.frequency, d, he⟩
            · cases he⟩

/-- Fatal aborts of the sweep loop: when the loop ends with the `test_point`
error arm, the partial results were exported as they stood, and the trace ends
with the failing `test_point` call followed immediately by `cleanup` and
`export`, with only `test_point` calls before it. -/
theorem sweepLoop_fatal_trace (tester : Nat → Int → Int → Int → TpResult) (cleanupOk : Bool)
    (snap : Snapshot) :
    ∀ (idxs : List Nat) (acc : List (Nat × VfPointE)),
      (sweepLoop tester cleanupOk snap idxs acc).exit = ExitCode.testError →
      (sweepLoop tester cleanupOk snap idxs acc).exported =
        some (sweepLoop tester cleanupOk snap idxs acc).results ∧
      ∃ pre i v f d,
        (sweepLoop tester cleanupOk snap idxs acc).events =
          pre ++ [Event.evTestPoint i v f d, Event.evCleanup, Event.evExport] ∧
        tester i v f d = TpResult.fatal ∧
        ∀ e ∈ pre, ∃ i2 v2 f2 d2, e = Event.evTestPoint i2 v2 f2 d2
  | [], acc => by
    intro hex
    cases cleanupOk <;> simp [sweepLoop] at hex
  | i :: rest, acc => by
    intro hex
    cases hg : List.lookup i snap.graphics with
    | none =>
      simp only [sweepLoop, hg] at hex ⊢
      exact sweepLoop_fatal_trace tester cleanupOk snap rest acc hex
    | some pt =>
      cases hd : List.lookup i snap.deltas with
      | none =>
        simp [sweepLoop, hg, hd] at hex
      | some d =>
        cases ht : tester i pt.voltage pt.frequency d with
        | found delta freq =>
          simp only [sweepLoop, hg, hd, ht] at hex ⊢
          obtain ⟨hflush, pre, i2, v2, f2, d2, hev, hfat, hall⟩ :=
            sweepLoop_fatal_trace tester cleanupOk snap rest
              (btreeInsert i ⟨pt.voltage, freq, delta⟩ acc) hex
          refine ⟨hflush, Event.evTestPoint i pt.voltage pt.frequency d :: pre,
            i2, v2, f2, d2, by simp [hev], hfat, ?_⟩
          intro e he
          rcases List.mem_cons.mp he with he | he
          · exact ⟨i, pt.voltage, pt.frequency, d, he⟩
          · exact hall e he
        | noImprovement =>
          simp only [sweepLoop, hg, hd, ht] at hex ⊢
          obtain ⟨hflush, pre, i2, v2, f2, d2, hev, hfat, hall⟩ :=
            sweepLoop_fatal_trace tester cleanupOk snap rest acc hex
          refine ⟨hflush, Event.evTestPoint i pt.voltage pt.frequency d :: pre,
            i2, v2, f2, d2, by simp [hev], hfat, ?_⟩
          intro e he
          rcases List.mem_cons.mp he with he | he
          · exact ⟨i, pt.voltage, pt.frequency, d, he⟩
          · exact hall e he
        | fatal =>
          simp only [sweepLoop, hg, hd, ht]
          exact ⟨by trivial, [], i, pt.voltage, pt.frequency, d, by trivial, ht, by simp⟩

/-- One accumulator step: an entry for `j` exists afterwards iff it existed
before or `j` is the stepped index and its test discovered a stable point. -/
theorem lookup_stepAcc (tester : Nat → Int → Int → Int → TpResult) (snap : Snapshot)
    (a : List (Nat × VfPointE)) (i j : Nat) :
    (List.lookup j (stepAcc tester snap a i)).isSome = true ↔
      (List.lookup j a).isSome = true ∨
        (j = i ∧ ∃ d f, runTest tester snap j = some (TpResult.found d f)) := by
  cases hg : List.lookup i snap.graphics with
  | none =>
    have hs : stepAcc tester snap a i = a := by
      unfold stepAcc
      rw [hg]
    have hr : runTest tester snap i = none := by
      rw [runTest, hg]
    rw [hs]
    constructor
    · exact Or.inl
    · rintro (h | ⟨rfl, d, f, hf⟩)
      · exact h
      · rw [hr] at hf
        cases hf
  | some pt =>
    cases hd : List.lookup i snap.deltas with
    | none =>
      have hs : stepAcc tester snap a i = a := by
        unfold stepAcc
        rw [hg, hd]
      have hr : runTest tester snap i = none := by
        rw [runTest, hg, hd]
      rw [hs]
      constructor
      · exact Or.inl
      · rintro (h | ⟨rfl, d, f, hf⟩)
        · exact h
        · rw [hr] at hf
          cases hf
    | some d =>
      cases ht : tester i pt.voltage pt.frequency d with
      | found delta freq =>
        have hs : stepAcc tester snap a i =
            btreeInsert i ⟨pt.voltage, freq, delta⟩ a := by
          unfold stepAcc
          simp only [hg, hd, ht]
        have hr : runTest tester snap i = some (TpResult.found delta freq) := by
          unfold runTest
          simp only [hg, hd, ht]
        rw [hs, lookup_btreeInsert]
        by_cases hj : j = i
        · subst hj
          rw [if_pos rfl]
          constructor
          · intro _
            exact Or.inr ⟨rfl, delta, freq, hr⟩
          · intro _
            rfl
        · rw [if_neg hj]
          constructor
          · exact Or.inl
          · rintro (h | ⟨rfl, _, _, _⟩)
            · exact h
            · exact absurd rfl hj
      | noImprovement =>
        have hs : stepAcc tester snap a i = a := by
          unfold stepAcc
          simp only [hg, hd, ht]
        have hr : runTest tester snap i = some TpResult.noImprovement := by
          unfold runTest
          simp only [hg, hd, ht]
        rw [hs]
        constructor
        · exact Or.inl
        · rintro (h | ⟨rfl, d2, f2, hf⟩)
          · exact h
          · rw [hr] at hf
            simp at hf
      | fatal =>
        have hs : stepAcc tester snap a i = a := by
          unfold stepAcc
          simp only [hg, hd, ht]
        have hr : runTest tester snap i = some TpResult.fatal := by
          unfold runTest
          simp only [hg, hd, ht]
        rw [hs]
        constructor
        · exact Or.inl
        · rintro (h | ⟨rfl, d2, f2, hf⟩)
          · exact h
          · rw [hr] at hf
            simp at hf

/-- Folding the accumulator step over a list of indices: an entry for `j`
exists afterwards iff it existed before or `j` is a folded index whose test
discovered a stable point. -/
theorem lookup_foldl_stepAcc (tester : Nat → Int → Int → Int → TpResult) (snap : Snapshot) :
    ∀ (pre : List Nat) (a : List (Nat × VfPointE)) (j : Nat),
      (List.lookup j (List.foldl (stepAcc tester snap) a pre)).isSome = true ↔
        (List.lookup j a).isSome = true ∨
          (j ∈ pre ∧ ∃ d f, runTest tester snap j = some (TpResult.found d f))
  | [], a, j => by simp
  | i :: pre, a, j => by
    rw [List.foldl_cons, lookup_foldl_stepAcc tester snap pre (stepAcc tester snap a i) j,
      lookup_stepAcc]
    simp only [List.mem_cons, or_and_right, or_assoc]

/-- Fatal aborts of the sweep loop split the index list: the indices before
the aborting index `k` were each processed by one accumulator step, `k`'s test
is fatal, and the final accumulator is the fold of those steps. -/
theorem sweepLoop_fatal_results (tester : Nat → Int → Int → Int → TpResult) (cleanupOk : Bool)
    (snap : Snapshot) :
    ∀ (idxs : List Nat) (acc : List (Nat × VfPointE)),
      (sweepLoop tester cleanupOk snap idxs acc).exit = ExitCode.testError →
      ∃ pre k rest, idxs = pre ++ k :: rest ∧
        runTest tester snap k = some TpResult.fatal ∧
        (sweepLoop tester cleanupOk snap idxs acc).results =
          List.foldl (stepAcc tester snap) acc pre
  | [], acc => by
    intro hex
    cases cleanupOk <;> simp [sweepLoop] at hex
  | i :: rest, acc => by
    intro hex
    cases hg : List.lookup i snap.graphics with
    | none =>
      simp only [sweepLoop, hg] at hex ⊢
      obtain ⟨pre, k, rest2, hsplit, hfatal, hres⟩ :=
        sweepLoop_fatal_results tester cleanupOk snap rest acc hex
      refine ⟨i :: pre, k, rest2, by simp [hsplit], hfatal, ?_⟩
      rw [hres, List.foldl_cons]
      have hstep : stepAcc tester snap acc i = acc := by
        unfold stepAcc
        rw [hg]
      rw [hstep]
    | some pt =>
      cases hd : List.lookup i snap.deltas with
      | none =>
        simp [sweepLoop, hg, hd] at hex
      | some d =>
        cases ht : tester i pt.voltage pt.frequency d with
        | found delta freq =>
          simp only [sweepLoop, hg, hd, ht] at hex ⊢
          obtain ⟨pre, k, rest2, hsplit, hfatal, hres⟩ :=
            sweepLoop_fatal_results tester cleanupOk snap rest
              (btreeInsert i ⟨pt.voltage, freq, delta⟩ acc) hex
          refine ⟨i :: pre, k, rest2, by simp [hsplit], hfatal, ?_⟩
          rw [hres, List.foldl_cons]
          have hstep : stepAcc tester snap acc i = btreeInsert i ⟨pt.voltage, freq, delta⟩ acc := by
            unfold stepAcc
            simp only [hg, hd, ht]
          rw [hstep]
        | noImprovement =>
          simp only [sweepLoop, hg, hd, ht] at hex ⊢
          obtain ⟨pre, k, rest2, hsplit, hfatal, hres⟩ :=
            sweepLoop_fatal_results tester cleanupOk snap rest acc hex
          refine ⟨i :: pre, k, rest2, by simp [hsplit], hfatal, ?_⟩
          rw [hres, List.foldl_cons]
          have hstep : stepAcc tester snap acc i = acc := by
            unfold stepAcc
            simp only [hg, hd, ht]
          rw [hstep]
        | fatal =>
          simp only [sweepLoop, hg, hd, ht]
          refine ⟨[], i, rest, rfl, ?_, by trivial⟩
          unfold runTest
          simp only [hg, hd, ht]

/-- When no test is fatal and every curve index has a settings delta, the
sweep loop tests exactly the indices of its list that are present in the
curve, in list order. -/
theorem sweepLoop_tested_filter (tester : Nat → Int → Int → Int → TpResult) (cleanupOk : Bool)
    (snap : Snapshot) :
    ∀ (idxs : List Nat) (acc : List (Nat × VfPointE)),
      (∀ i ∈ idxs, runTest tester snap i ≠ some TpResult.fatal) →
      (∀ i ∈ idxs, (List.lookup i snap.graphics).isSome = true →
        (List.lookup i snap.deltas).isSome = true) →
      testedIndices (sweepLoop tester cleanupOk snap idxs acc).events =
        idxs.filter (fun i => (List.lookup i snap.graphics).isSome)
  | [], acc => by
    intro _ _
    rfl
  | i :: rest, acc => by
    intro h1 h2
    have h1r : ∀ j ∈ rest, runTest tester snap j ≠ some TpResult.fatal :=
      fun j hj => h1 j (List.mem_cons_of_mem i hj)
    have h2r : ∀ j ∈ rest, (List.lookup j snap.graphics).isSome = true →
        (List.lookup j snap.deltas).isSome = true :=
      fun j hj => h2 j (List.mem_cons_of_mem i hj)
    cases hg : List.lookup i snap.graphics with
    | none =>
      simp only [sweepLoop, hg]
      rw [sweepLoop_tested_filter tester cleanupOk snap rest acc h1r h2r, List.filter_cons]
      simp [hg]
    | some pt =>
      have hds : (List.lookup i snap.deltas).isSome = true :=
        h2 i (List.mem_cons_self i rest) (by rw [hg]; rfl)
      cases hd : List.lookup i snap.deltas with
      | none =>
        rw [hd] at hds
        cases hds
      | some d =>
        cases ht : tester i pt.voltage pt.frequency d with
        | found delta freq =>
          simp only [sweepLoop, hg, hd, ht]
          rw [List.filter_cons]
          simp only [hg, Option.isSome_some, if_pos]
          rw [← sweepLoop_tested_filter tester cleanupOk snap rest
            (btreeInsert i ⟨pt.voltage, freq, delta⟩ acc) h1r h2r]
          simp [testedIndices, testCallArgs]
        | noImprovement =>
          simp only [sweepLoop, hg, hd, ht]
          rw [List.filter_cons]
          simp only [hg, Option.isSome_some, if_pos]
          rw [← sweepLoop_tested_filter tester cleanupOk snap rest acc h1r h2r]
          simp [testedIndices, testCallArgs]
        | fatal =>
          refine absurd ?_ (h1 i (List.mem_cons_self i rest))
          unfold runTest
          simp only [hg, hd, ht]

/-- Every `test_point` call the sweep loop makes takes its starting delta from
the settings snapshot at the called index. -/
theorem sweepLoop_args (tester : Nat → Int → Int → Int → TpResult) (cleanupOk : Bool)
    (snap : Snapshot) :
    ∀ (idxs : List Nat) (acc : List (Nat × VfPointE)) (i : Nat) (d : Int),
      (i, d) ∈ testCallArgs (sweepLoop tester cleanupOk snap idxs acc).events →
      List.lookup i snap.deltas = some d ∧ (List.lookup i snap.graphics).isSome = true
  | [], acc, i, d => by
    intro h
    cases h
  | j :: rest, acc, i, d => by
    intro h
    cases hg : List.lookup j snap.graphics with
    | none =>
      simp only [sweepLoop, hg] at h
      exact sweepLoop_args tester cleanupOk snap rest acc i d h
    | some pt =>
      cases hd : List.lookup j snap.deltas with
      | none =>
        simp only [sweepLoop, hg, hd] at h
        cases h
      | some d2 =>
        cases ht : tester j pt.voltage pt.frequency d2 with
        | found delta freq =>
          simp only [sweepLoop, hg, hd, ht, testCallArgs] at h
          rcases List.mem_cons.mp h with h | h
          · injection h with h1 h2
            subst h1
            subst h2
            exact ⟨hd, by rw [hg]; rfl⟩
          · exact sweepLoop_args tester cleanupOk snap rest
              (btreeInsert j ⟨pt.voltage, freq, delta⟩ acc) i d h
        | noImprovement =>
          simp only [sweepLoop, hg, hd, ht, testCallArgs] at h
          rcases List.mem_cons.mp h with h | h
          · injection h with h1 h2
            subst h1
            subst h2
            exact ⟨hd, by rw [hg]; rfl⟩
          · exact sweepLoop_args tester cleanupOk snap rest acc i d h
        | fatal =>
          simp only [sweepLoop, hg, hd, ht, testCallArgs] at h
          rcases List.mem_cons.mp h with h | h
          · injection h with h1 h2
            subst h1
            subst h2
            exact ⟨hd, by rw [hg]; rfl⟩
          · cases h

/-- A successful association-list lookup means the key occurs in the list. -/
theorem lookup_isSome_mem {β : Type} (i : Nat) :
    ∀ l : List (Nat × β), (List.lookup i l).isSome = true → i ∈ l.map Prod.fst
  | [] => by
    intro h
    cases h
  | (a, b) :: rest => by
    by_cases h : i = a
    · intro _
      simp [h]
    · have hb : (i == a) = false := by simp [h]
      intro hs
      simp only [List.lookup, hb] at hs
      simp [lookup_isSome_mem i rest hs]

/-- When session creation and preparation succeed and the effective end bound
resolves to `e`, the `auto` branch is the sweep loop over the descending range
prefixed by the `new` and `prepare` events. -/
theorem autoCommand_run (cleanupOk : Bool) (tester : Nat → Int → Int → Int → TpResult)
    (snap : Snapshot) (start : Nat) (endArg : Option Nat) (e : Nat)
    (he : effectiveEnd snap endArg = some e) :
    autoCommand true true cleanupOk tester snap start endArg =
      { sweepLoop tester cleanupOk snap (sweepIndices start e) [] with
          events := Event.evNew :: Event.evPrepare ::
            (sweepLoop tester cleanupOk snap (sweepIndices start e) []).events } := by
  unfold autoCommand
  rw [he]
  rfl

/-- C1 amended: every `test_point` call of the sweep receives as its starting
delta the current delta recorded for that same index in the settings snapshot
read before the sweep — not the delta discovered at the previously tested
index. -/
theorem C1_amended_snapshot_delta (newOk prepOk cleanupOk : Bool)
    (tester : Nat → Int → Int → Int → TpResult) (snap : Snapshot)
    (start : Nat) (endArg : Option Nat) (i : Nat) (d : Int)
    (h : (i, d) ∈ testCallArgs
      (autoCommand newOk prepOk cleanupOk tester snap start endArg).events) :
    List.lookup i snap.deltas = some d := by
  cases hm : effectiveEnd snap endArg with
  | none =>
    unfold autoCommand at h
    rw [hm] at h
    simp [testCallArgs] at h
  | some e =>
    cases newOk with
    | false =>
      unfold autoCommand at h
      rw [hm] at h
      simp [testCallArgs] at h
    | true =>
      cases prepOk with
      | false =>
        unfold autoCommand at h
        rw [hm] at h
        simp [testCallArgs] at h
      | true =>
        rw [autoCommand_run cleanupOk tester snap start endArg e hm] at h
        have h2 : (i, d) ∈ testCallArgs
            (sweepLoop tester cleanupOk snap (sweepIndices start e) []).events := h
        exact (sweepLoop_args tester cleanupOk snap (sweepIndices start e) [] i d h2).1

/-- Witness for C1 amended at a concrete sweep. -/
theorem C1_amended_snapshot_delta_witness :
    List.lookup 1 cexSnap1.deltas = some 0 :=
  C1_amended_snapshot_delta true true true cexTester1 cexSnap1 0 (some 2) 1 0 (by decide)

/-- C2 amended: the sweep iterates the half-open range `[start, end)` in
strictly descending index order; when no explicit end bound is given, the end
is the maximum curve index itself, so — when no test aborts and every curve
point has a settings delta — exactly the in-curve indices at or above `start`
and strictly below the maximum are tested, and the maximum curve index is
never tested. -/
theorem C2_amended_descending_halfopen (cleanupOk : Bool)
    (tester : Nat → Int → Int → Int → TpResult) (snap : Snapshot) (start m : Nat)
    (hm : maxKey snap.graphics = some m)
    (hnofatal : ∀ i, runTest tester snap i ≠ some TpResult.fatal)
    (hdeltas : ∀ i, (List.lookup i snap.graphics).isSome = true →
      (List.lookup i snap.deltas).isSome = true) :
    List.Chain' (· > ·) (sweepIndices start m) ∧
    (∀ i, i ∈ sweepIndices start m ↔ start ≤ i ∧ i < m) ∧
    m ∈ snap.graphics.map Prod.fst ∧
    (∀ j ∈ snap.graphics.map Prod.fst, j ≤ m) ∧
    testedIndices (autoCommand true true cleanupOk tester snap start none).events =
      (sweepIndices start m).filter (fun i => (List.lookup i snap.graphics).isSome) ∧
    m ∉ testedIndices (autoCommand true true cleanupOk tester snap start none).events := by
  have hrun := autoCommand_run cleanupOk tester snap start none m hm
  have hmem : ∀ i, i ∈ sweepIndices start m ↔ start ≤ i ∧ i < m := by
    intro i
    unfold sweepIndices
    rw [List.mem_reverse, List.mem_range'_1]
    omega
  have hchain : List.Chain' (· > ·) (sweepIndices start m) := by
    have hp : (List.range' start (m - start)).Pairwise (· < ·) :=
      List.pairwise_lt_range' start (m - start)
    have hp2 : ((List.range' start (m - start)).reverse).Pairwise (· > ·) := by
      rw [List.pairwise_reverse]
      exact hp
    exact hp2.chain'
  have hm2 : (snap.graphics.map Prod.fst).maximum = some m := hm
  have hmmem : m ∈ snap.graphics.map Prod.fst := List.maximum_mem hm2
  have hmle : ∀ j ∈ snap.graphics.map Prod.fst, j ≤ m := fun j hj =>
    List.le_maximum_of_mem hj hm2
  have htested : testedIndices (autoCommand true true cleanupOk tester snap start none).events =
      (sweepIndices start m).filter (fun i => (List.lookup i snap.graphics).isSome) := by
    rw [hrun]
    have hshift : testedIndices (Event.evNew :: Event.evPrepare ::
        (sweepLoop tester cleanupOk snap (sweepIndices start m) []).events) =
        testedIndices (sweepLoop tester cleanupOk snap (sweepIndices start m) []).events := rfl
    rw [hshift]
    exact sweepLoop_tested_filter tester cleanupOk snap (sweepIndices start m) []
      (fun i _ => hnofatal i) (fun i _ => hdeltas i)
  refine ⟨hchain, hmem, hmmem, hmle, htested, ?_⟩
  rw [htested]
  intro hmem2
  have h3 := (hmem m).mp (List.mem_filter.mp hmem2).1
  omega

/-- No test with the constant no-improvement tester is fatal. -/
theorem runTest_cexTester2_not_fatal (snap : Snapshot) (i : Nat) :
    runTest cexTester2 snap i ≠ some TpResult.fatal := by
  unfold runTest
  cases List.lookup i snap.graphics with
  | none => simp
  | some pt =>
    cases List.lookup i snap.deltas with
    | none => simp
    | some d => simp [cexTester2]

/-- Witness for C2 amended at a concrete sweep with default end bound. -/
theorem C2_amended_descending_halfopen_witness :
    (2 : Nat) ∉ testedIndices (autoCommand true true true cexTester2 cexSnap2 0 none).events :=
  (C2_amended_descending_halfopen true cexTester2 cexSnap2 0 2 (by rfl)
    (runTest_cexTester2_not_fatal cexSnap2)
    (fun i h => by
      have hmem := lookup_isSome_mem i cexSnap2.graphics h
      simp [cexSnap2] at hmem
      rcases hmem with rfl | rfl | rfl <;> rfl)).2.2.2.2.2

/-- C3: whenever the `auto` branch ends in the `test_point` error arm, the
partial results as accumulated were exported, and the trace ends with the
failing `test_point` call followed immediately by `cleanup` and the export —
nothing else is tested after the failure, and the error is surfaced only after
cleanup and the flush. -/
theorem C3_fatal_flush (newOk prepOk cleanupOk : Bool)
    (tester : Nat → Int → Int → Int → TpResult) (snap : Snapshot)
    (start : Nat) (endArg : Option Nat)
    (h : (autoCommand newOk prepOk cleanupOk tester snap start endArg).exit =
      ExitCode.testError) :
    (autoCommand newOk prepOk cleanupOk tester snap start endArg).exported =
      some (autoCommand newOk prepOk cleanupOk tester snap start endArg).results ∧
    ∃ pre i v f d,
      (autoCommand newOk prepOk cleanupOk tester snap start endArg).events =
        pre ++ [Event.evTestPoint i v f d, Event.evCleanup, Event.evExport] ∧
      tester i v f d = TpResult.fatal ∧
      ∀ e ∈ pre, e = Event.evNew ∨ e = Event.evPrepare ∨
        ∃ i2 v2 f2 d2, e = Event.evTestPoint i2 v2 f2 d2 := by
  cases hm : effectiveEnd snap endArg with
  | none =>
    exfalso
    unfold autoCommand at h
    rw [hm] at h
    simp at h
  | some e =>
    cases newOk with
    | false =>
      exfalso
      unfold autoCommand at h
      rw [hm] at h
      simp at h
    | true =>
      cases prepOk with
      | false =>
        exfalso
        unfold autoCommand at h
        rw [hm] at h
        simp at h
      | true =>
        rw [autoCommand_run cleanupOk tester snap start endArg e hm] at h ⊢
        have h2 : (sweepLoop tester cleanupOk snap (sweepIndices start e) []).exit =
            ExitCode.testError := h
        obtain ⟨hflush, pre, i, v, f, d, hev, hfat, hall⟩ :=
          sweepLoop_fatal_trace tester cleanupOk snap (sweepIndices start e) [] h2
        refine ⟨hflush, Event.evNew :: Event.evPrepare :: pre, i, v, f, d, ?_, hfat, ?_⟩
        · show Event.evNew :: Event.evPrepare ::
            (sweepLoop tester cleanupOk snap (sweepIndices start e) []).events = _
          rw [hev]
          rfl
        · intro ev hmem
          rcases List.mem_cons.mp hmem with rfl | hmem
          · exact Or.inl rfl
          rcases List.mem_cons.mp hmem with rfl | hmem
          · exact Or.inr (Or.inl rfl)
          · exact Or.inr (Or.inr (hall ev hmem))

/-- Witness for C3 at a concrete aborting sweep. -/
theorem C3_fatal_flush_witness :
    (autoCommand true true true cexTester4 cexSnap2 0 (some 3)).exported =
      some (autoCommand true true true cexTester4 cexSnap2 0 (some 3)).results ∧
    ∃ pre i v f d,
      (autoCommand true true true cexTester4 cexSnap2 0 (some 3)).events =
        pre ++ [Event.evTestPoint i v f d, Event.evCleanup, Event.evExport] ∧
      cexTester4 i v f d = TpResult.fatal ∧
      ∀ e ∈ pre, e = Event.evNew ∨ e = Event.evPrepare ∨
        ∃ i2 v2 f2 d2, e = Event.evTestPoint i2 v2 f2 d2 :=
  C3_fatal_flush true true true cexTester4 cexSnap2 0 (some 3) (by rfl)

/-- C4 amended: a sweep (over distinct indices, starting from an empty
accumulator) that aborts fatally at index `k` splits its index list around
`k`; at the abort the accumulator holds an entry for exactly those indices
visited strictly before `k` whose test discovered a stable point, and no entry
for `k` itself or for any index not yet visited. -/
theorem C4_amended_partial_results (tester : Nat → Int → Int → Int → TpResult)
    (cleanupOk : Bool) (snap : Snapshot) (idxs : List Nat) (hnd : idxs.Nodup)
    (h : (sweepLoop tester cleanupOk snap idxs []).exit = ExitCode.testError) :
    ∃ pre k rest, idxs = pre ++ k :: rest ∧
      runTest tester snap k = some TpResult.fatal ∧
      List.lookup k (sweepLoop tester cleanupOk snap idxs []).results = none ∧
      ∀ j, (List.lookup j (sweepLoop tester cleanupOk snap idxs []).results).isSome = true ↔
        (j ∈ pre ∧ ∃ d f, runTest tester snap j = some (TpResult.found d f)) := by
  obtain ⟨pre, k, rest, hsplit, hfat, hres⟩ :=
    sweepLoop_fatal_results tester cleanupOk snap idxs [] h
  have hiff : ∀ j,
      (List.lookup j (sweepLoop tester cleanupOk snap idxs []).results).isSome = true ↔
        (j ∈ pre ∧ ∃ d f, runTest tester snap j = some (TpResult.found d f)) := by
    intro j
    rw [hres, lookup_foldl_stepAcc]
    simp [List.lookup]
  have hknotin : k ∉ pre := by
    rw [hsplit, List.nodup_append] at hnd
    intro hk
    exact hnd.2.2 hk (List.mem_cons_self k rest)
  refine ⟨pre, k, rest, hsplit, hfat, ?_, hiff⟩
  have hnot : ¬ (List.lookup k
      (sweepLoop tester cleanupOk snap idxs []).results).isSome = true := by
    rw [hiff k]
    rintro ⟨hk, _⟩
    exact hknotin hk
  exact Option.not_isSome_iff_eq_none.mp hnot

/-- Witness for C4 amended at a concrete aborting sweep. -/
theorem C4_amended_partial_results_witness :
    ∃ pre k rest, ([2, 1, 0] : List Nat) = pre ++ k :: rest ∧
      runTest cexTester4 cexSnap2 k = some TpResult.fatal ∧
      List.lookup k (sweepLoop cexTester4 true cexSnap2 [2, 1, 0] []).results = none ∧
      ∀ j, (List.lookup j (sweepLoop cexTester4 true cexSnap2 [2, 1, 0] []).results).isSome =
          true ↔
        (j ∈ pre ∧ ∃ d f, runTest cexTester4 cexSnap2 j = some (TpResult.found d f)) :=
  C4_amended_partial_results cexTester4 true cexSnap2 [2, 1, 0] (by decide) (by rfl)

/-- C7: the sweep driver follows the sequential contract
new → prepare → test_point* → cleanup: on every non-panicking run that gets
past session creation and preparation, the trace is `new`, then `prepare`,
then a block consisting only of `test_point` calls, then `cleanup` (followed
by the final export) — including runs where a `test_point` call fails. -/
theorem C7_call_contract (cleanupOk : Bool)
    (tester : Nat → Int → Int → Int → TpResult) (snap : Snapshot)
    (start : Nat) (endArg : Option Nat)
    (h : (autoCommand true true cleanupOk tester snap start endArg).exit ≠
      ExitCode.panicked) :
    ∃ tests, (autoCommand true true cleanupOk tester snap start endArg).events =
        Event.evNew :: Event.evPrepare :: (tests ++ [Event.evCleanup, Event.evExport]) ∧
      ∀ e ∈ tests, ∃ i v f d, e = Event.evTestPoint i v f d := by
  cases hm : effectiveEnd snap endArg with
  | none =>
    exfalso
    apply h
    unfold autoCommand
    rw [hm]
  | some e =>
    rw [autoCommand_run cleanupOk tester snap start endArg e hm] at h ⊢
    have h2 : (sweepLoop tester cleanupOk snap (sweepIndices start e) []).exit ≠
        ExitCode.panicked := h
    obtain ⟨tests, hev, hall⟩ :=
      sweepLoop_shape tester cleanupOk snap (sweepIndices start e) [] h2
    refine ⟨tests, ?_, hall⟩
    show Event.evNew :: Event.evPrepare ::
        (sweepLoop tester cleanupOk snap (sweepIndices start e) []).events = _
    rw [hev]

/-- Witness for C7 at a concrete sweep. -/
theorem C7_call_contract_witness :
    ∃ tests, (autoCommand true true true cexTester2 cexSnap2 0 none).events =
        Event.evNew :: Event.evPrepare :: (tests ++ [Event.evCleanup, Event.evExport]) ∧
      ∀ e ∈ tests, ∃ i v f d, e = Event.evTestPoint i v f d :=
  C7_call_contract true cexTester2 cexSnap2 0 none (by decide)

/-- C6: on every non-panicking run of the `auto` branch that gets past session
creation and preparation, the results accumulator is exported exactly once —
once on the normal-completion path and once on the fatal-error path, never
zero times and never twice. -/
theorem C6_export_once (cleanupOk : Bool)
    (tester : Nat → Int → Int → Int → TpResult) (snap : Snapshot)
    (start : Nat) (endArg : Option Nat)
    (h : (autoCommand true true cleanupOk tester snap start endArg).exit ≠
      ExitCode.panicked) :
    ((autoCommand true true cleanupOk tester snap start endArg).events).count
      Event.evExport = 1 := by
  cases hm : effectiveEnd snap endArg with
  | none =>
    exfalso
    apply h
    unfold autoCommand
    rw [hm]
  | some e =>
    rw [autoCommand_run cleanupOk tester snap start endArg e hm] at h ⊢
    have h2 : (sweepLoop tester cleanupOk snap (sweepIndices start e) []).exit ≠
        ExitCode.panicked := h
    obtain ⟨tests, hev, hall⟩ :=
      sweepLoop_shape tester cleanupOk snap (sweepIndices start e) [] h2
    have hnot : Event.evExport ∉ tests := by
      intro hmem
      obtain ⟨i, v, f, d, heq⟩ := hall _ hmem
      cases heq
    show (Event.evNew :: Event.evPrepare ::
      (sweepLoop tester cleanupOk snap (sweepIndices start e) []).events).count
        Event.evExport = 1
    rw [hev]
    simp [List.count_cons, List.count_append, List.count_eq_zero.mpr hnot]

/-- Witness for C6 at a concrete sweep. -/
theorem C6_export_once_witness :
    ((autoCommand true true true cexTester2 cexSnap2 0 none).events).count
      Event.evExport = 1 :=
  C6_export_once true cexTester2 cexSnap2 0 none (by decide)

end NvOClock
